import Mathlib

/-!
Verification of the step-sequence navigation engine of the stepperize
repository: the ordered step catalog, its query utilities, the navigator
(cursor with clamping `next`/`prev`, failing `goTo`/`setIndex`), the guarded
transition executor, and the typed dispatch helpers (`switch`/`match`).

The engine implementation file (`packages/core/src/utils.ts`) is not part of
the sources available here; only its test suite and the public type
declarations are. Every definition below is therefore modelled from the
specification text (and, where noted, from the expectations the test suite
pins down), not transcribed from implementation code.
-/

namespace Stepperize

/-- Modelled from the spec: a Step carries a unique string `id` plus an open,
caller-defined payload (title, description, arbitrary domain data). The
payload is abstracted as a type parameter. -/
structure Step (α : Type) where
  id : String
  payload : α
deriving DecidableEq, Repr

/-- Modelled from the spec: the error kinds of §7 — `NotFound` (unknown step
id), `OutOfRange` (index outside bounds, carrying which bound was violated as
a message), `NoSuchNeighbor` (neighbor requested past an extreme), and
`UnhandledStep` (dispatch mapping missing an entry for the current step). -/
inductive StepperError where
  | notFound
  | outOfRange (msg : String)
  | noSuchNeighbor
  | unhandledStep
deriving DecidableEq, Repr

/-- Modelled from the spec: position of the first step whose id matches, the
recursion underlying `getIndex`. -/
def findIndex (id : String) : List (Step α) → Option Nat
  | [] => none
  | s :: rest => if s.id == id then some 0 else (findIndex id rest).map (· + 1)

/-- Modelled from the spec: the first step whose id matches, the recursion
underlying `get`. -/
def findStep (id : String) : List (Step α) → Option (Step α)
  | [] => none
  | s :: rest => if s.id == id then some s else findStep id rest

/-- Modelled from the spec (§4.1): `get(id)` returns the Step with that id or
fails `NotFound`. -/
def get (steps : List (Step α)) (id : String) : Except StepperError (Step α) :=
  match findStep id steps with
  | some s => .ok s
  | none => .error .notFound

/-- Modelled from the spec (§4.1): `getIndex(id)` returns the zero-based
position of the step with that id or fails `NotFound`. -/
def getIndex (steps : List (Step α)) (id : String) : Except StepperError Nat :=
  match findIndex id steps with
  | some i => .ok i
  | none => .error .notFound

/-- Modelled from the spec (§4.1): `getByIndex(i)` returns the Step at
position `i`, failing `OutOfRange` outside `[0, length-1]`. -/
def getByIndex (steps : List (Step α)) (i : Nat) : Except StepperError (Step α) :=
  match steps[i]? with
  | some s => .ok s
  | none => .error (.outOfRange "index out of range")

/-- Modelled from the spec (§4.1): `getFirst()` returns the step at position
0; the catalog is guaranteed non-empty, so absence only covers the vacuous
empty case. -/
def getFirst (steps : List (Step α)) : Option (Step α) :=
  steps.head?

/-- Modelled from the spec (§4.1): `getLast()` returns the step at position
`length-1`. -/
def getLast (steps : List (Step α)) : Option (Step α) :=
  steps.getLast?

/-- Modelled from the spec (§4.1): `getNext(id)` returns the step immediately
after `id`, failing `NoSuchNeighbor` when `id` is the last step (no
wrap-around) and `NotFound` when `id` is unknown. -/
def getNext (steps : List (Step α)) (id : String) : Except StepperError (Step α) :=
  match findIndex id steps with
  | none => .error .notFound
  | some i =>
    match steps[i + 1]? with
    | some s => .ok s
    | none => .error .noSuchNeighbor

/-- Modelled from the spec (§4.1): `getPrev(id)` returns the step immediately
before `id`, failing `NoSuchNeighbor` when `id` is the first step (no
wrap-around) and `NotFound` when `id` is unknown. -/
def getPrev (steps : List (Step α)) (id : String) : Except StepperError (Step α) :=
  match findIndex id steps with
  | none => .error .notFound
  | some i =>
    if i = 0 then .error .noSuchNeighbor
    else
      match steps[i - 1]? with
      | some s => .ok s
      | none => .error .noSuchNeighbor

/-- Modelled from the spec (§4.1): the `{prev, next}` pair returned by
`getNeighbors`, where either side is absent (not an error) exactly at the
respective extreme. -/
structure Neighbors (α : Type) where
  prev : Option (Step α)
  next : Option (Step α)
deriving DecidableEq, Repr

/-- Modelled from the spec (§4.1): `getNeighbors(id)` returns the pair
`{prev, next}` with an absent side exactly when `id` sits at that extreme. -/
def getNeighbors (steps : List (Step α)) (id : String) :
    Except StepperError (Neighbors α) :=
  match findIndex id steps with
  | none => .error .notFound
  | some i =>
    .ok { prev := if i = 0 then none else steps[i - 1]?, next := steps[i + 1]? }

/-- Modelled from the spec (§6) and the expectations of the test suite
(`utils.test.ts`, `getInitialStepIndex` block): the construction-time starting
index is the index of the optional starting step id when that id occurs in
the list, and 0 both when the id is omitted and when it is unknown. -/
def getInitialStepIndex (steps : List (Step α)) (initialStep : Option String) : Nat :=
  match initialStep with
  | none => 0
  | some id => (findIndex id steps).getD 0

/-- Modelled from the spec (§4.3, §8): the bounds-enforcing primitive. The
index setter of the implementation is modelled by the returned value: `.ok n`
means the setter was invoked with exactly `n`, `.error msg` means the
operation threw with message `msg` and the setter was never invoked. The
messages carry the violated bound, matching the test regexes `/first step/`
and `/last step/`. -/
def updateStepIndex (steps : List (Step α)) (newIndex : Int) : Except String Int :=
  if newIndex < 0 then .error "Cannot navigate before the first step"
  else if (steps.length : Int) ≤ newIndex then .error "Cannot navigate past the last step"
  else .ok newIndex

/-- Modelled from the spec: `true` when `needle` occurs as a contiguous
run inside the character list. -/
def containsSub (needle : List Char) : List Char → Bool
  | [] => needle.isEmpty
  | c :: rest => needle.isPrefixOf (c :: rest) || containsSub needle rest

/-- Modelled from the spec: `true` when `needle` occurs as a substring of
`msg`, the check the test suite performs with a regular expression. -/
def mentions (needle msg : String) : Bool :=
  containsSub needle.data msg.data

/-- Modelled from the spec (§3, §4.3): the Navigator's state — the catalog,
the Cursor, and the initial Cursor value captured at construction. -/
structure NavState (α : Type) where
  steps : List (Step α)
  cursor : Nat
  initial : Nat
deriving DecidableEq, Repr

/-- Modelled from the spec (§4.3): `next()` sets the Cursor to
`min(Cursor+1, length-1)`, silently clamping at the last step. -/
def navNext (s : NavState α) : NavState α :=
  { s with cursor := min (s.cursor + 1) (s.steps.length - 1) }

/-- Modelled from the spec (§4.3): `prev()` sets the Cursor to
`max(Cursor-1, 0)`; natural-number subtraction realises the clamp at 0. -/
def navPrev (s : NavState α) : NavState α :=
  { s with cursor := s.cursor - 1 }

/-- Modelled from the spec (§4.3): `goTo(id)` resolves `id` to an index and
sets the Cursor there; an unknown id fails `NotFound` with the Cursor
unchanged. -/
def navGoTo (s : NavState α) (id : String) : Except StepperError (NavState α) :=
  match findIndex id s.steps with
  | some i => .ok { s with cursor := i }
  | none => .error .notFound

/-- Modelled from the spec (§4.3): `current()` is the step at the Cursor. -/
def currentStep (s : NavState α) : Option (Step α) :=
  s.steps[s.cursor]?

/-- Modelled from the spec (§4.3): `reset()` restores the Cursor to the
initial value captured at construction. -/
def navReset (s : NavState α) : NavState α :=
  { s with cursor := s.initial }

/-- Modelled from the spec (§3): the direction of a transition request. -/
inductive TransitionDirection where
  | next
  | prev
  | goTo
deriving DecidableEq, Repr

/-- Modelled from the spec (§4.4): an observable event of one Executor run —
either the callback being invoked, or one of the Navigator's transition
methods being invoked (the mocks the test suite observes). -/
inductive TransitionEvent where
  | callbackInvoked
  | nextInvoked
  | prevInvoked
  | goToInvoked (targetId : Option String)
deriving DecidableEq, Repr

/-- Modelled from the spec (§4.4): the Navigator-method event a direction
produces when the transition is applied. -/
def directionEvent : TransitionDirection → Option String → TransitionEvent
  | .next, _ => .nextInvoked
  | .prev, _ => .prevInvoked
  | .goTo, t => .goToInvoked t

/-- Modelled from the spec (§4.4): applying the requested transition to the
Navigator — `next()`, `prev()`, or `goTo(targetId)` per `direction`. A `goTo`
without a target id is a contract violation of the caller; it is modelled as
the `NotFound` failure. -/
def applyTransition (s : NavState α) :
    TransitionDirection → Option String → Except StepperError (NavState α)
  | .next, _ => .ok (navNext s)
  | .prev, _ => .ok (navPrev s)
  | .goTo, some id => navGoTo s id
  | .goTo, none => .error .notFound

/-- Modelled from the spec (§4.4): the Guarded Transition Executor. The
callback's awaited result is modelled as `callbackResult : Bool` (the
truthiness of the awaited value; an absent or void callback counts as
truthy). The result is the ordered list of observable events together with
the Navigator outcome: with `before` true the callback gates the transition
(a falsy result aborts with no Navigator mutation), with `before` false the
transition is applied first and the callback's result is not inspected. -/
def executeTransition (s : NavState α) (direction : TransitionDirection)
    (targetId : Option String) (callbackResult : Bool) (before : Bool) :
    List TransitionEvent × Except StepperError (NavState α) :=
  if before then
    if callbackResult then
      ([.callbackInvoked, directionEvent direction targetId],
        applyTransition s direction targetId)
    else
      ([.callbackInvoked], .ok s)
  else
    ([directionEvent direction targetId, .callbackInvoked],
      applyTransition s direction targetId)

/-- Modelled from the spec (§4.5): the handler lookup inside a dispatch
mapping, keyed by step id; mappings are modelled as association lists. -/
def lookupHandler {α β : Type} (id : String) :
    List (String × (Step α → β)) → Option (Step α → β)
  | [] => none
  | (k, f) :: rest => if k == id then some f else lookupHandler id rest

/-- Modelled from the spec (§4.5): `switch(mapping)` looks up the handler for
the current step's id and invokes it with the current Step, returning its
result; it fails `UnhandledStep` if the current step's id has no entry. -/
def stepperSwitch (s : NavState α) (mapping : List (String × (Step α → β))) :
    Except StepperError β :=
  match currentStep s with
  | none => .error .notFound
  | some st =>
    match lookupHandler st.id mapping with
    | some f => .ok (f st)
    | none => .error .unhandledStep

/-- Modelled from the spec (§4.5): `match(id, mapping)` dispatches on a
caller-supplied `id`, applying its handler to the step with that id, and
returns the no-match sentinel `null` — modelled as `none` — instead of
failing when `id` has no entry in the mapping. -/
def stepperMatch (steps : List (Step α)) (id : String)
    (mapping : List (String × (Step α → β))) : Option β :=
  match lookupHandler id mapping with
  | none => none
  | some f =>
    match findStep id steps with
    | some st => some (f st)
    | none => none

/-- The number of Navigator-method invocations (non-callback events) in an
Executor trace: the count in which "the transition is applied exactly once"
is stated. -/
def transitionCount (events : List TransitionEvent) : Nat :=
  events.countP (fun e => decide (e ≠ TransitionEvent.callbackInvoked))

/-- A concrete three-step catalog used to instantiate the general theorems. -/
def stepsABC : List (Step Nat) :=
  [⟨"a", 10⟩, ⟨"b", 20⟩, ⟨"c", 30⟩]

theorem findIndex_lt_length {α : Type} (id : String) :
    ∀ (l : List (Step α)) (i : Nat), findIndex id l = some i → i < l.length := by
  intro l
  induction l with
  | nil => intro i h; simp [findIndex] at h
  | cons s rest ih =>
    intro i h
    by_cases hs : s.id == id
    · simp [findIndex, hs] at h
      simp only [List.length_cons]
      omega
    · simp [findIndex, hs] at h
      obtain ⟨j, hj, hji⟩ := h
      have := ih j hj
      simp only [List.length_cons]
      omega

theorem getElem?_findIndex {α : Type} (id : String) :
    ∀ (l : List (Step α)) (i : Nat), findIndex id l = some i →
      l[i]? = findStep id l := by
  intro l
  induction l with
  | nil => intro i h; simp [findIndex] at h
  | cons s rest ih =>
    intro i h
    by_cases hs : s.id == id
    · simp [findIndex, hs] at h
      simp [findStep, hs, ← h]
    · simp [findIndex, hs] at h
      obtain ⟨j, hj, hji⟩ := h
      simp [findStep, hs, ← hji, ih j hj]

theorem findStep_of_findIndex {α : Type} (id : String) (l : List (Step α)) (i : Nat)
    (h : findIndex id l = some i) : l[i]? = findStep id l ∧ ∃ st, l[i]? = some st := by
  refine ⟨getElem?_findIndex id l i h, ?_⟩
  have hlt := findIndex_lt_length id l i h
  exact ⟨l[i], List.getElem?_eq_getElem hlt⟩

theorem directionEvent_ne_callback {d : TransitionDirection} {t : Option String} :
    directionEvent d t ≠ TransitionEvent.callbackInvoked := by
  cases d <;> simp [directionEvent]

/-- C1: for every transition direction, when `executeTransition` runs with
`runBefore` true the callback is invoked; a falsy awaited result aborts —
no stepper transition method is invoked (the trace is the lone callback
event, transition count 0) and the Cursor is unchanged (the state is
returned as-is) — while a truthy result applies the requested transition
exactly once (transition count 1, state is the applied transition). -/
theorem executeTransition_before_spec {α : Type} (s : NavState α)
    (d : TransitionDirection) (t : Option String) :
    executeTransition s d t false true = ([TransitionEvent.callbackInvoked], Except.ok s)
    ∧ transitionCount (executeTransition s d t false true).1 = 0
    ∧ executeTransition s d t true true
        = ([TransitionEvent.callbackInvoked, directionEvent d t], applyTransition s d t)
    ∧ transitionCount (executeTransition s d t true true).1 = 1 := by
  refine ⟨rfl, rfl, rfl, ?_⟩
  simp [executeTransition, transitionCount, directionEvent_ne_callback]

/-- C6: for every transition direction, when `executeTransition` runs with
`runBefore` false the requested transition is applied first and the callback
is invoked afterwards (the trace is the transition event followed by the
callback event), the outcome does not depend on the callback's return value,
and the transition is applied exactly once. -/
theorem executeTransition_after_spec {α : Type} (s : NavState α)
    (d : TransitionDirection) (t : Option String) (cb cb' : Bool) :
    executeTransition s d t cb false
      = ([directionEvent d t, TransitionEvent.callbackInvoked], applyTransition s d t)
    ∧ executeTransition s d t cb false = executeTransition s d t cb' false
    ∧ transitionCount (executeTransition s d t cb false).1 = 1 := by
  refine ⟨rfl, rfl, ?_⟩
  simp [executeTransition, transitionCount, directionEvent_ne_callback]

/-- C3: `next()` sets the Cursor to `min(Cursor+1, length-1)` and `prev()`
sets it to `max(Cursor-1, 0)`; both are total (they never fail) and leave the
catalog untouched, and repeated `next()` at the last step, like repeated
`prev()` at the first step, leaves the state unchanged. -/
theorem nav_clamp_spec {α : Type} (s : NavState α) (n : Nat) :
    (navNext s).cursor = min (s.cursor + 1) (s.steps.length - 1)
    ∧ ((navPrev s).cursor : Int) = max ((s.cursor : Int) - 1) 0
    ∧ (navNext s).steps = s.steps
    ∧ (navPrev s).steps = s.steps
    ∧ navNext^[n] { s with cursor := s.steps.length - 1 }
        = { s with cursor := s.steps.length - 1 }
    ∧ navPrev^[n] { s with cursor := 0 } = { s with cursor := 0 } := by
  refine ⟨rfl, ?_, rfl, rfl, ?_, ?_⟩
  · simp only [navPrev]
    omega
  · refine Function.iterate_fixed ?_ n
    simp [navNext, Nat.min_eq_right (Nat.le_succ _)]
  · refine Function.iterate_fixed ?_ n
    simp [navPrev]

/-- C2: the bounds-enforcing primitive fails with the message naming the
first-step bound when `newIndex < 0`, fails with the message naming the
last-step bound when `newIndex ≥ length` — in both failure cases the index
setter is never invoked (no `.ok` is produced) — and for `newIndex` in
`[0, length-1]` it invokes the setter with exactly `newIndex`. The `mentions`
conjuncts check that each message contains the respective bound's phrase. -/
theorem updateStepIndex_spec {α : Type} (steps : List (Step α)) (newIndex : Int) :
    (newIndex < 0 →
      updateStepIndex steps newIndex = .error "Cannot navigate before the first step")
    ∧ ((steps.length : Int) ≤ newIndex →
      updateStepIndex steps newIndex = .error "Cannot navigate past the last step")
    ∧ (0 ≤ newIndex → newIndex < (steps.length : Int) →
      updateStepIndex steps newIndex = .ok newIndex)
    ∧ mentions "first step" "Cannot navigate before the first step" = true
    ∧ mentions "last step" "Cannot navigate past the last step" = true := by
  refine ⟨?_, ?_, ?_, by decide, by decide⟩
  · intro h
    simp [updateStepIndex, h]
  · intro h
    have h0 : ¬ newIndex < 0 := by omega
    simp [updateStepIndex, h0, h]
  · intro h1 h2
    have h0 : ¬ newIndex < 0 := by omega
    have h3 : ¬ (steps.length : Int) ≤ newIndex := by omega
    simp [updateStepIndex, h0, h3]

/-- C2 witness at the three-step catalog: index `-1` fails on the first-step
bound, `3` fails on the last-step bound, `1` is applied as-is. -/
theorem updateStepIndex_spec_witness :
    updateStepIndex stepsABC (-1) = .error "Cannot navigate before the first step"
    ∧ updateStepIndex stepsABC 3 = .error "Cannot navigate past the last step"
    ∧ updateStepIndex stepsABC 1 = .ok 1 :=
  ⟨(updateStepIndex_spec stepsABC (-1)).1 (by decide),
   (updateStepIndex_spec stepsABC 3).2.1 (by decide),
   (updateStepIndex_spec stepsABC 1).2.2.1 (by decide) (by decide)⟩

/-- C4: for a step id located at index `i`, `getNext` returns the step at
`i+1` when it exists and fails `NoSuchNeighbor` when `id` is the last step;
`getPrev` returns the step at `i-1` when `i > 0` and fails `NoSuchNeighbor`
when `id` is the first step — neither wraps around. -/
theorem getNext_getPrev_spec {α : Type} (steps : List (Step α)) (id : String) (i : Nat)
    (h : findIndex id steps = some i) :
    (∀ st, steps[i + 1]? = some st → getNext steps id = .ok st)
    ∧ (i + 1 = steps.length → getNext steps id = .error .noSuchNeighbor)
    ∧ (∀ st, i ≠ 0 → steps[i - 1]? = some st → getPrev steps id = .ok st)
    ∧ (i = 0 → getPrev steps id = .error .noSuchNeighbor) := by
  refine ⟨?_, ?_, ?_, ?_⟩
  · intro st hst
    simp [getNext, h, hst]
  · intro hlen
    have hnone : steps[i + 1]? = none := by
      rw [List.getElem?_eq_none_iff]
      omega
    simp [getNext, h, hnone]
  · intro st hi hst
    simp [getPrev, h, hi, hst]
  · intro hi
    simp [getPrev, h, hi]

/-- C4 witness at the three-step catalog: interior neighbors are returned,
and both extremes fail `NoSuchNeighbor`. -/
theorem getNext_getPrev_spec_witness :
    getNext stepsABC "a" = .ok ⟨"b", 20⟩
    ∧ getNext stepsABC "c" = .error .noSuchNeighbor
    ∧ getPrev stepsABC "c" = .ok ⟨"b", 20⟩
    ∧ getPrev stepsABC "a" = .error .noSuchNeighbor :=
  ⟨(getNext_getPrev_spec stepsABC "a" 0 rfl).1 _ rfl,
   (getNext_getPrev_spec stepsABC "c" 2 rfl).2.1 rfl,
   (getNext_getPrev_spec stepsABC "c" 2 rfl).2.2.1 _ (by decide) rfl,
   (getNext_getPrev_spec stepsABC "a" 0 rfl).2.2.2 rfl⟩

/-- C5: `switch` looks up the handler for the current step's id; when an
entry exists it is invoked with the current Step and its result returned,
and when the current step's id has no entry `switch` fails `UnhandledStep`. -/
theorem stepperSwitch_spec {α β : Type} (s : NavState α) (st : Step α)
    (mapping : List (String × (Step α → β)))
    (hc : currentStep s = some st) :
    (∀ f, lookupHandler st.id mapping = some f →
      stepperSwitch s mapping = .ok (f st))
    ∧ (lookupHandler st.id mapping = none →
      stepperSwitch s mapping = .error .unhandledStep) := by
  constructor
  · intro f hf
    simp [stepperSwitch, hc, hf]
  · intro hf
    simp [stepperSwitch, hc, hf]

/-- C5 witness with the current step "c": a covering mapping dispatches to
the handler of "c" (payload 30 plus 2), a mapping lacking "c" fails. -/
theorem stepperSwitch_spec_witness :
    stepperSwitch ⟨stepsABC, 2, 2⟩
        ([("a", fun st => st.payload), ("b", fun st => st.payload + 1),
          ("c", fun st => st.payload + 2)] : List (String × (Step Nat → Nat)))
      = .ok 32
    ∧ stepperSwitch ⟨stepsABC, 2, 2⟩
        ([("a", fun st => st.payload)] : List (String × (Step Nat → Nat)))
      = .error .unhandledStep :=
  ⟨(stepperSwitch_spec ⟨stepsABC, 2, 2⟩ ⟨"c", 30⟩ _ rfl).1
      (fun st => st.payload + 2) rfl,
   (stepperSwitch_spec ⟨stepsABC, 2, 2⟩ ⟨"c", 30⟩ _ rfl).2 rfl⟩

/-- C7: for an id located at index `i` in the catalog, `getNeighbors`
succeeds with a pair whose `prev` side is absent exactly when the id is the
first step and whose `next` side is absent exactly when it is the last step,
and each present side agrees with `getPrev`/`getNext` respectively. -/
theorem getNeighbors_spec {α : Type} (steps : List (Step α)) (id : String) (i : Nat)
    (h : findIndex id steps = some i) :
    ∃ nb : Neighbors α, getNeighbors steps id = .ok nb
      ∧ (nb.prev = none ↔ i = 0)
      ∧ (nb.next = none ↔ i + 1 = steps.length)
      ∧ (∀ p, nb.prev = some p ↔ getPrev steps id = .ok p)
      ∧ (∀ q, nb.next = some q ↔ getNext steps id = .ok q) := by
  have hlt := findIndex_lt_length id steps i h
  refine ⟨⟨if i = 0 then none else steps[i - 1]?, steps[i + 1]?⟩,
    by simp [getNeighbors, h], ?_, ?_, ?_, ?_⟩
  · by_cases hi : i = 0
    · simp [hi]
    · have hpl : i - 1 < steps.length := by omega
      simp [hi, List.getElem?_eq_getElem hpl]
  · simp only [List.getElem?_eq_none_iff]
    omega
  · intro p
    by_cases hi : i = 0
    · simp [hi, getPrev, h]
    · have hpl : i - 1 < steps.length := by omega
      simp [hi, getPrev, h, List.getElem?_eq_getElem hpl]
  · intro q
    cases hq : steps[i + 1]? with
    | none => simp [getNext, h, hq]
    | some st => simp [getNext, h, hq]

/-- C7 witness at the three-step catalog: the first step has no `prev` and a
present `next`, the last has the converse, and the interior step's sides
agree with `getPrev`/`getNext`. -/
theorem getNeighbors_spec_witness :
    getNeighbors stepsABC "a" = .ok ⟨none, some ⟨"b", 20⟩⟩
    ∧ getNeighbors stepsABC "c" = .ok ⟨some ⟨"b", 20⟩, none⟩
    ∧ getNeighbors stepsABC "b" = .ok ⟨some ⟨"a", 10⟩, some ⟨"c", 30⟩⟩
    ∧ getPrev stepsABC "b" = .ok ⟨"a", 10⟩
    ∧ getNext stepsABC "b" = .ok ⟨"c", 30⟩ := by
  obtain ⟨nb, hnb, -, -, hp, hn⟩ := getNeighbors_spec stepsABC "b" 1 rfl
  have hb : nb = ⟨some ⟨"a", 10⟩, some ⟨"c", 30⟩⟩ := by
    rw [show getNeighbors stepsABC "b" = .ok ⟨some ⟨"a", 10⟩, some ⟨"c", 30⟩⟩ from rfl]
      at hnb
    exact (Except.ok.inj hnb).symm
  exact ⟨rfl, rfl, rfl, (hp ⟨"a", 10⟩).mp (by rw [hb]), (hn ⟨"c", 30⟩).mp (by rw [hb])⟩

/-- C8: `match(id, mapping)` applies the handler for `id` to the step with
that id when the mapping has an entry for `id`, and returns the no-match
sentinel `none` — it is a total function, so it never throws — when `id` has
no entry in the mapping. -/
theorem stepperMatch_spec {α β : Type} (steps : List (Step α)) (id : String)
    (mapping : List (String × (Step α → β))) :
    (∀ f st, lookupHandler id mapping = some f → findStep id steps = some st →
      stepperMatch steps id mapping = some (f st))
    ∧ (lookupHandler id mapping = none → stepperMatch steps id mapping = none) := by
  constructor
  · intro f st hf hst
    simp [stepperMatch, hf, hst]
  · intro hf
    simp [stepperMatch, hf]

/-- C8 witness: dispatching on "b" with an entry returns its handler's
result on the step "b"; an id absent from the mapping yields the sentinel. -/
theorem stepperMatch_spec_witness :
    stepperMatch stepsABC "b"
        ([("b", fun st => st.payload)] : List (String × (Step Nat → Nat)))
      = some 20
    ∧ stepperMatch stepsABC "x"
        ([("a", fun st => st.payload)] : List (String × (Step Nat → Nat)))
      = none :=
  ⟨(stepperMatch_spec stepsABC "b"
      ([("b", fun st => st.payload)] : List (String × (Step Nat → Nat)))).1
      (fun st => st.payload) ⟨"b", 20⟩ rfl rfl,
   (stepperMatch_spec stepsABC "x"
      ([("a", fun st => st.payload)] : List (String × (Step Nat → Nat)))).2 rfl⟩

/-- C9: lookup consistency — when `getIndex id` yields `i` and `get id`
yields a step, `getByIndex i` yields that same step; and `getFirst`/`getLast`
are the entries at positions 0 and `length-1`. -/
theorem lookup_consistency_spec {α : Type} (steps : List (Step α)) (id : String)
    (i : Nat) (st : Step α)
    (hi : getIndex steps id = .ok i) (hs : get steps id = .ok st) :
    getByIndex steps i = .ok st
    ∧ getFirst steps = steps[0]?
    ∧ getLast steps = steps[steps.length - 1]? := by
  have hfi : findIndex id steps = some i := by
    cases hfi : findIndex id steps with
    | none => simp [getIndex, hfi] at hi
    | some j =>
      simp [getIndex, hfi] at hi
      rw [hi]
  have hfs : findStep id steps = some st := by
    cases hfs : findStep id steps with
    | none => simp [get, hfs] at hs
    | some s =>
      simp [get, hfs] at hs
      rw [hs]
  have hgi : steps[i]? = some st := (getElem?_findIndex id steps i hfi).trans hfs
  refine ⟨by simp [getByIndex, hgi], ?_, ?_⟩
  · cases steps <;> simp [getFirst]
  · exact List.getLast?_eq_getElem? steps

/-- C9 witness at the three-step catalog, via the id "b" at index 1. -/
theorem lookup_consistency_spec_witness :
    getByIndex stepsABC 1 = .ok ⟨"b", 20⟩
    ∧ getFirst stepsABC = stepsABC[0]?
    ∧ getLast stepsABC = stepsABC[stepsABC.length - 1]? :=
  lookup_consistency_spec stepsABC "b" 1 ⟨"b", 20⟩ rfl rfl

/-- C10: the construction-time starting index is 0 when no initial step id
is given, the index of the initial step id when it occurs in the list, and 0
again — a silent fallback to the first step — when the id is unknown,
whereas `goTo` fails `NotFound` on the same unknown id. -/
theorem getInitialStepIndex_spec {α : Type} (steps : List (Step α)) (id : String) :
    getInitialStepIndex steps none = 0
    ∧ (∀ i, findIndex id steps = some i → getInitialStepIndex steps (some id) = i)
    ∧ (findIndex id steps = none → getInitialStepIndex steps (some id) = 0)
    ∧ (findIndex id steps = none →
        ∀ c init, navGoTo ⟨steps, c, init⟩ id = .error .notFound) := by
  refine ⟨rfl, ?_, ?_, ?_⟩
  · intro i hi
    simp [getInitialStepIndex, hi]
  · intro hn
    simp [getInitialStepIndex, hn]
  · intro hn c init
    simp [navGoTo, hn]

/-- C10 witness at the three-step catalog: omitted id gives 0, "b" gives 1,
the unknown id "zzz" gives 0, and `goTo "zzz"` fails `NotFound`. -/
theorem getInitialStepIndex_spec_witness :
    getInitialStepIndex stepsABC none = 0
    ∧ getInitialStepIndex stepsABC (some "b") = 1
    ∧ getInitialStepIndex stepsABC (some "zzz") = 0
    ∧ navGoTo ⟨stepsABC, 0, 0⟩ "zzz" = .error .notFound :=
  ⟨(getInitialStepIndex_spec stepsABC "b").1,
   (getInitialStepIndex_spec stepsABC "b").2.1 1 rfl,
   (getInitialStepIndex_spec stepsABC "zzz").2.2.1 rfl,
   (getInitialStepIndex_spec stepsABC "zzz").2.2.2 rfl 0 0⟩

end Stepperize
